import Mathlib

/-!
Shallow embedding of `src/product_catalog.py` (BlackRoad product catalog).

The SQLite-backed store is modelled as a `List Product` (rows in insertion
order, i.e. rowid order).  Timestamps (`datetime.now().isoformat()`) are
passed in explicitly as a `now : String` parameter.  Python `float` price and
cost are modelled as exact rationals; `round(x, n)` and `format(x, ".nf")`
round half-to-even on the exact value, matching Python's rounding mode.
Python `str.upper()` is modelled on ASCII letters (all SKUs in play are
ASCII).  SQLite `LIKE` (case-insensitive for ASCII, `%`/`_` wildcards),
`ORDER BY` (BINARY collation, i.e. code-point order), `LIMIT` (negative
means unlimited) and the `UNIQUE` constraint on `sku` are modelled directly.
-/

/-- Python `str.upper()` on one ASCII character
(code points 97–122 are the lowercase letters a–z). -/
def asciiUpper (c : Char) : Char :=
  if 97 ≤ c.toNat ∧ c.toNat ≤ 122 then Char.ofNat (c.toNat - 32) else c

/-- Python `str.upper()` on a string (ASCII case folding). -/
def strUpper (s : String) : String :=
  String.mk (s.data.map asciiUpper)

/-- Round a rational to the nearest integer, ties to even
(Python's `round` / `format` rounding mode on exact values). -/
def roundHalfEven (x : ℚ) : ℤ :=
  let f : ℤ := ⌊x⌋
  let r : ℚ := x - (f : ℚ)
  if r < 1/2 then f
  else if 1/2 < r then f + 1
  else if f % 2 = 0 then f else f + 1

/-- Python `round(x, 2)`. -/
def round2 (x : ℚ) : ℚ := (roundHalfEven (x * 100) : ℚ) / 100

/-- Exactly `d` decimal digits of `m` (most significant first), `m < 10 ^ d`. -/
def fracDigits (m d : ℕ) : String :=
  String.mk ((List.range d).map (fun k => Nat.digitChar (m / 10 ^ (d - 1 - k) % 10)))

/-- Python `f"\x7bx:.df\x7d"`: fixed-point rendering with exactly `d`
fractional digits, rounding half-to-even. -/
def fmtFixed (x : ℚ) (d : ℕ) : String :=
  let n : ℤ := roundHalfEven (x * (10 : ℚ) ^ d)
  let sign := if n < 0 then "-" else ""
  let m := n.natAbs
  sign ++ Nat.repr (m / 10 ^ d) ++ "." ++ fracDigits (m % 10 ^ d) d

/-- One row of the `products` table / the `Product` dataclass. -/
structure Product where
  sku : String
  name : String
  category : String
  price : ℚ
  cost : ℚ
  inventory : ℤ
  unit : String
  description : String
  active : Bool
  id : Option ℤ
  created_at : String
  updated_at : String
deriving DecidableEq

/-- `Product.margin_pct`. -/
def Product.margin_pct (p : Product) : ℚ :=
  if p.price ≤ 0 then 0 else round2 ((p.price - p.cost) / p.price * 100)

/-- `Product.inventory_status`. -/
def Product.inventory_status (p : Product) : String :=
  if p.inventory ≤ 0 then "OUT_OF_STOCK"
  else if p.inventory < 10 then "LOW_STOCK"
  else "IN_STOCK"

/-- Errors surfaced by the store; the `sqlite3.IntegrityError` raised on a
`sku` UNIQUE-constraint violation is the spec's `DuplicateSkuError`. -/
inductive CatalogError where
  | duplicateSku : String → CatalogError
deriving DecidableEq

namespace ProductCatalog

/-- SQLite rowid assignment: one more than the largest id ever used
(no delete operation exists, so this is max of current ids plus one). -/
def nextId (store : List Product) : ℤ :=
  (store.map (fun p => p.id.getD 0)).foldr max 0 + 1

/-- `ProductCatalog.add_product`: uppercases the sku, inserts one row; the
UNIQUE constraint on `sku` makes the insert fail when the (uppercased) sku
is already present, leaving the table unchanged. -/
def add_product (store : List Product) (now : String)
    (sku name category : String) (price cost : ℚ) (inventory : ℤ)
    (unit descr : String) : Except CatalogError (List Product × Product) :=
  let p : Product :=
    { sku := strUpper sku, name := name, category := category,
      price := price, cost := cost, inventory := inventory,
      unit := unit, description := descr, active := true,
      id := some (nextId store), created_at := now, updated_at := now }
  if store.any (fun q => q.sku == p.sku) then
    Except.error (CatalogError.duplicateSku p.sku)
  else
    Except.ok (store ++ [p], p)

/-- The store after `add_product` (the table is unchanged when the insert
raises). -/
def add_product_store (store : List Product) (now : String)
    (sku name category : String) (price cost : ℚ) (inventory : ℤ)
    (unit descr : String) : List Product :=
  match add_product store now sku name category price cost inventory unit descr with
  | Except.ok (s, _) => s
  | Except.error _ => store

/-- `ORDER BY category, name` (BINARY collation = code-point order). -/
def catNameLe (p q : Product) : Bool :=
  decide (toLex (p.category, p.name) ≤ toLex (q.category, q.name))

/-- `ORDER BY name`. -/
def nameLe (p q : Product) : Bool :=
  decide (p.name ≤ q.name)

/-- The WHERE clause built by `list_products`: `active = 1` when
`active_only`, and `category = ?` when a category is passed and truthy
(Python `if category:` — `None` and `""` are both falsy). -/
def listKeep (category : Option String) (active_only : Bool) (p : Product) : Bool :=
  (!active_only || p.active) &&
  (match category with
   | none => true
   | some c => if c = "" then true else p.category == c)

/-- `ProductCatalog.list_products`.  SQLite `LIMIT n` with `n < 0` returns
all rows. -/
def list_products (store : List Product) (category : Option String)
    (active_only : Bool) (limit : ℤ) : List Product :=
  let sorted := (store.filter (listKeep category active_only)).mergeSort catNameLe
  if limit < 0 then sorted else sorted.take limit.toNat

/-- Does `f` accept some suffix of the string? (the backtracking step of a
`%` wildcard). -/
def anySuffix (f : List Char → Bool) : List Char → Bool
  | [] => f []
  | c :: t => f (c :: t) || anySuffix f t

/-- SQLite `LIKE` matching (`%` = any sequence, `_` = any one character,
ASCII case-insensitive). -/
def likeMatch : List Char → List Char → Bool
  | [], s => s.isEmpty
  | c :: ps, s =>
    if c = '%' then anySuffix (likeMatch ps) s
    else
      match s with
      | [] => false
      | d :: t =>
        if c = '_' then likeMatch ps t
        else (asciiUpper c == asciiUpper d) && likeMatch ps t

/-- The WHERE clause of `search`: `sku LIKE ? OR name LIKE ? OR
category LIKE ? OR description LIKE ?` with pattern `%query%`. -/
def searchKeep (query : String) (p : Product) : Bool :=
  let pat : List Char := '%' :: query.data ++ ['%']
  likeMatch pat p.sku.data || likeMatch pat p.name.data ||
    likeMatch pat p.category.data || likeMatch pat p.description.data

/-- `ProductCatalog.search`. -/
def search (store : List Product) (query : String) : List Product :=
  (store.filter (searchKeep query)).mergeSort nameLe

/-- `ProductCatalog.update_inventory`: one UPDATE clamping at 0 and
refreshing `updated_at` on every row whose sku equals the uppercased
argument, then a SELECT of that row (`None` when absent). -/
def update_inventory (store : List Product) (now : String)
    (sku : String) (delta : ℤ) : List Product × Option Product :=
  let u := strUpper sku
  let store' := store.map (fun p =>
    if p.sku == u then
      { p with inventory := max 0 (p.inventory + delta), updated_at := now }
    else p)
  (store', store'.find? (fun p => p.sku == u))

/-- Does a csv field need quoting (Python `csv.writer`, QUOTE_MINIMAL:
field contains the delimiter, the quotechar or a lineterminator char)? -/
def csvNeedsQuote (s : String) : Bool :=
  s.data.any (fun c => c == ',' || c == '"' || c == '\r' || c == '\n')

/-- Double every quotechar in the field. -/
def csvEscape (s : String) : String :=
  String.mk (s.data.flatMap (fun c => if c == '"' then ['"', '"'] else [c]))

/-- Render one csv field (QUOTE_MINIMAL). -/
def csvField (s : String) : String :=
  if csvNeedsQuote s then "\"" ++ csvEscape s ++ "\"" else s

/-- `csv.writer.writerow`: comma-joined fields, `\r\n` terminator. -/
def csvRow (fields : List String) : String :=
  String.intercalate "," (fields.map csvField) ++ "\r\n"

/-- Python `str(bool)`. -/
def pyBoolStr (b : Bool) : String := if b then "True" else "False"

/-- The csv data row written for one product by `export_csv`. -/
def productCsvRow (p : Product) : String :=
  csvRow [p.sku, p.name, p.category, fmtFixed p.price 2, fmtFixed p.cost 2,
          fmtFixed p.margin_pct 1, toString p.inventory, p.unit,
          p.inventory_status, pyBoolStr p.active]

/-- The header row written by `export_csv`. -/
def csvHeader : String :=
  csvRow ["SKU", "Name", "Category", "Price", "Cost",
          "Margin%", "Inventory", "Unit", "Status", "Active"]

/-- `ProductCatalog.export_csv` (the returned text; the optional write of
that same text to a file is I/O outside the model). -/
def export_csv (store : List Product) : String :=
  let products := list_products store none false 100000
  csvHeader ++ String.join (products.map productCsvRow)

/-- The list of data rows of the export, one string per product row. -/
def exportRows (store : List Product) : List String :=
  (list_products store none false 100000).map productCsvRow

/-- The dict returned by `get_catalog_stats`. -/
structure CatalogStats where
  total : ℕ
  out_of_stock : ℕ
  low_stock : ℕ
  in_stock : ℤ
  inventory_value : ℚ
  categories : List (String × ℕ)
deriving DecidableEq

/-- `ProductCatalog.get_catalog_stats`.  `SUM(...)` is NULL on an empty
selection and `value or 0` maps that to 0, which coincides with the empty
sum.  `GROUP BY category` is modelled as one `(category, count)` pair per
distinct category of an active row. -/
def get_catalog_stats (store : List Product) : CatalogStats :=
  let act := store.filter (fun p => p.active)
  let total := act.length
  let oos := (act.filter (fun p => p.inventory == 0)).length
  let low := (act.filter (fun p => 0 < p.inventory && p.inventory < 10)).length
  let value : ℚ := (act.map (fun p => p.price * (p.inventory : ℚ))).sum
  { total := total
    out_of_stock := oos
    low_stock := low
    in_stock := (total : ℤ) - (oos : ℤ) - (low : ℤ)
    inventory_value := round2 value
    categories :=
      (act.map (fun p => p.category)).dedup.map
        (fun c => (c, (act.filter (fun p => p.category == c)).length)) }

end ProductCatalog

/-- The spec's search semantics (§4.1): the query is a case-insensitive
substring of sku, name, category, or description (OR semantics). -/
def specSearchMatch (query : String) (p : Product) : Prop :=
  query.data.map asciiUpper <:+: p.sku.data.map asciiUpper ∨
  query.data.map asciiUpper <:+: p.name.data.map asciiUpper ∨
  query.data.map asciiUpper <:+: p.category.data.map asciiUpper ∨
  query.data.map asciiUpper <:+: p.description.data.map asciiUpper

instance (query : String) (p : Product) : Decidable (specSearchMatch query p) := by
  unfold specSearchMatch
  infer_instance

/-- A query containing neither of the `LIKE` wildcard characters. -/
def noWildcards (q : String) : Prop := ∀ c ∈ q.data, c ≠ '%' ∧ c ≠ '_'

instance (q : String) : Decidable (noWildcards q) := by
  unfold noWildcards
  infer_instance

/-- The spec's filter for `list` (§4.1): active flag, and exact category
match whenever a category is given (including the empty string). -/
def claimKeep (category : Option String) (active_only : Bool) (p : Product) : Bool :=
  (!active_only || p.active) &&
  (match category with
   | none => true
   | some c => p.category == c)

/-- A sample product (used to instantiate universally quantified theorems). -/
def wProd : Product :=
  { sku := "A1", name := "Widget", category := "Tools", price := 100, cost := 70,
    inventory := 5, unit := "ea", description := "", active := true,
    id := some 1, created_at := "t0", updated_at := "t0" }

/-- A sample product in category `"Widgets"`. -/
def wGadget : Product :=
  { sku := "B2", name := "Gadget", category := "Widgets", price := 5, cost := 1,
    inventory := 0, unit := "ea", description := "", active := true,
    id := some 2, created_at := "t0", updated_at := "t0" }

/-- A sample product named `"abc"`. -/
def wAbc : Product :=
  { sku := "X9", name := "abc", category := "Misc", price := 1, cost := 0,
    inventory := 3, unit := "ea", description := "", active := true,
    id := some 3, created_at := "t0", updated_at := "t0" }

/-- The `i`-th row of a large catalog. -/
def bigProduct (i : ℕ) : Product :=
  { sku := "S" ++ Nat.repr i, name := "N", category := "C", price := 1, cost := 0,
    inventory := 0, unit := "ea", description := "", active := true,
    id := some i, created_at := "t0", updated_at := "t0" }

/-- A store with 100001 rows (one more than `export_csv`'s LIMIT). -/
def bigStore : List Product := (List.range 100001).map bigProduct

/-! ### Helper lemmas -/

theorem char_toNat_ofNat {n : ℕ} (h : n.isValidChar) : (Char.ofNat n).toNat = n := by
  unfold Char.ofNat
  rw [dif_pos h]
  rfl

theorem asciiUpper_idem (c : Char) : asciiUpper (asciiUpper c) = asciiUpper c := by
  unfold asciiUpper
  by_cases h : 97 ≤ c.toNat ∧ c.toNat ≤ 122
  · have hv : (c.toNat - 32).isValidChar := Or.inl (by omega)
    have ht : (Char.ofNat (c.toNat - 32)).toNat = c.toNat - 32 := char_toNat_ofNat hv
    rw [if_pos h, if_neg (by rw [ht]; omega)]
  · rw [if_neg h, if_neg h]

theorem strUpper_idem (s : String) : strUpper (strUpper s) = strUpper s := by
  unfold strUpper
  rw [show (String.mk (s.data.map asciiUpper)).data = s.data.map asciiUpper from rfl,
    List.map_map]
  exact congrArg String.mk (List.map_congr_left (fun a _ => by
    simpa using asciiUpper_idem a))

namespace ProductCatalog

/-! ### C1: duplicate sku on add -/

/-- C1: calling `add` with a sku whose uppercased form already exists in the
store fails with the duplicate-sku error (the UNIQUE-constraint violation)
and creates no new row; detection is case-insensitive because the argument
is uppercased before the insert and stored skus are uppercase. -/
theorem add_product_duplicate_sku (store : List Product) (now sku name category : String)
    (price cost : ℚ) (inventory : ℤ) (unit descr : String)
    (h : ∃ p ∈ store, p.sku = strUpper sku) :
    add_product store now sku name category price cost inventory unit descr =
      Except.error (CatalogError.duplicateSku (strUpper sku)) ∧
    add_product_store store now sku name category price cost inventory unit descr =
      store := by
  obtain ⟨p, hp, hsku⟩ := h
  have hany : store.any (fun q => q.sku == strUpper sku) = true :=
    List.any_eq_true.mpr ⟨p, hp, by simp [hsku]⟩
  refine ⟨?_, ?_⟩
  · unfold add_product
    simp only [hany, if_true]
  · unfold add_product_store add_product
    simp only [hany, if_true]

/-! ### C3: inventory update on an unknown sku -/

/-- C3: `adjustInventory` on a sku not present in the store returns the
not-found signal (`none`, not an exception) and leaves the whole store
unchanged. -/
theorem update_inventory_not_found (store : List Product) (now sku : String) (delta : ℤ)
    (h : ∀ p ∈ store, p.sku ≠ strUpper sku) :
    update_inventory store now sku delta = (store, none) := by
  have hmap : store.map (fun p =>
      if p.sku == strUpper sku then
        { p with inventory := max 0 (p.inventory + delta), updated_at := now }
      else p) = store := by
    rw [List.map_congr_left (g := id) (fun p hp => by simp [h p hp]), List.map_id]
  simp only [update_inventory]
  rw [hmap]
  rw [List.find?_eq_none.mpr (fun p hp => by simp [h p hp])]

/-! ### C10: case-insensitive sku lookup in inventory update -/

/-- C10: `adjustInventory` uppercases its sku argument before the lookup:
any two case variants of a sku behave identically, and any sku behaves
identically to its uppercased form. -/
theorem update_inventory_case_insensitive (store : List Product) (now s t : String)
    (delta : ℤ) (h : strUpper s = strUpper t) :
    update_inventory store now s delta = update_inventory store now t delta ∧
    update_inventory store now s delta =
      update_inventory store now (strUpper s) delta := by
  constructor
  · unfold update_inventory
    rw [h]
  · unfold update_inventory
    rw [strUpper_idem]

end ProductCatalog

namespace ProductCatalog

theorem find?_sku_nodup (u : String) :
    ∀ (l : List Product), (l.map Product.sku).Nodup →
      ∀ p ∈ l, p.sku = u → l.find? (fun q => q.sku == u) = some p := by
  intro l
  induction l with
  | nil => intro _ p hp; exact absurd hp (List.not_mem_nil p)
  | cons b t ih =>
    intro hnd p hp hpu
    rw [List.map_cons, List.nodup_cons] at hnd
    by_cases hb : ((fun q : Product => q.sku == u) b) = true
    · rw [List.find?_cons_of_pos t hb]
      rcases List.mem_cons.mp hp with rfl | hpt
      · rfl
      · exfalso
        apply hnd.1
        rw [show b.sku = u from by simpa using hb, ← hpu]
        exact List.mem_map.mpr ⟨p, hpt, rfl⟩
    · rw [List.find?_cons_of_neg t hb]
      rcases List.mem_cons.mp hp with rfl | hpt
      · exact absurd (by simpa using hpu) hb
      · exact ih hnd.2 p hpt hpu

/-! ### C2: inventory adjustment clamps at zero -/

/-- C2: for a sku present in the store, `adjustInventory` returns the
product with inventory set to `max 0 (old + delta)` and `updated_at`
refreshed, that updated row is in the resulting store, and the resulting
inventory is never below zero. -/
theorem update_inventory_adjusts (store : List Product) (now sku : String) (delta : ℤ)
    (p : Product) (hnd : (store.map Product.sku).Nodup)
    (hp : p ∈ store) (hsku : p.sku = strUpper sku) :
    (update_inventory store now sku delta).2 =
      some { p with inventory := max 0 (p.inventory + delta), updated_at := now } ∧
    { p with inventory := max 0 (p.inventory + delta), updated_at := now } ∈
      (update_inventory store now sku delta).1 ∧
    0 ≤ ({ p with
            inventory := max 0 (p.inventory + delta),
            updated_at := now } : Product).inventory := by
  have hcomp : ((fun q : Product => q.sku == strUpper sku) ∘ (fun q : Product =>
      if q.sku == strUpper sku then
        { q with inventory := max 0 (q.inventory + delta), updated_at := now }
      else q)) = fun q : Product => q.sku == strUpper sku := by
    funext q
    by_cases hq : (q.sku == strUpper sku) = true
    · simp only [Function.comp, if_pos hq]
    · simp only [Function.comp, if_neg hq]
  refine ⟨?_, ?_, ?_⟩
  · show (store.map _).find? _ = _
    rw [List.find?_map, hcomp, find?_sku_nodup (strUpper sku) store hnd p hp hsku]
    simp [hsku]
  · show _ ∈ store.map _
    exact List.mem_map.mpr ⟨p, hp, by simp [hsku]⟩
  · exact le_max_left 0 _

/-- Witness for C2 at a concrete store and an overdraft delta. -/
theorem update_inventory_adjusts_witness :
    (([wProd].map Product.sku).Nodup ∧ wProd ∈ [wProd] ∧ wProd.sku = strUpper "a1") ∧
    ((update_inventory [wProd] "t1" "a1" (-100)).2 =
      some { wProd with inventory := max 0 (wProd.inventory + (-100)), updated_at := "t1" } ∧
    { wProd with inventory := max 0 (wProd.inventory + (-100)), updated_at := "t1" } ∈
      (update_inventory [wProd] "t1" "a1" (-100)).1 ∧
    0 ≤ ({ wProd with
            inventory := max 0 (wProd.inventory + (-100)),
            updated_at := "t1" } : Product).inventory) :=
  ⟨⟨by decide, by decide, by decide⟩,
    update_inventory_adjusts [wProd] "t1" "a1" (-100) wProd (by decide) (by decide) (by decide)⟩

/-! ### C8: inventory adjustment frame condition -/

/-- C8: `adjustInventory` relates old and new store rows pointwise: every
field except `inventory` and `updated_at` is unchanged in every row, and
rows whose sku is not the uppercased argument are completely unchanged. -/
theorem update_inventory_frame (store : List Product) (now sku : String) (delta : ℤ) :
    List.Forall₂ (fun p p' =>
        p'.sku = p.sku ∧ p'.name = p.name ∧ p'.category = p.category ∧
        p'.price = p.price ∧ p'.cost = p.cost ∧ p'.unit = p.unit ∧
        p'.description = p.description ∧ p'.active = p.active ∧
        p'.id = p.id ∧ p'.created_at = p.created_at ∧
        p'.inventory =
          (if p.sku = strUpper sku then max 0 (p.inventory + delta) else p.inventory) ∧
        p'.updated_at = (if p.sku = strUpper sku then now else p.updated_at))
      store (update_inventory store now sku delta).1 := by
  show List.Forall₂ _ store (store.map _)
  rw [List.forall₂_map_right_iff, List.forall₂_same]
  intro q _
  by_cases hq : q.sku = strUpper sku <;> simp [hq]

/-! ### C9: derived inventory status -/

/-- C9: for a product whose inventory respects the data-model floor of 0,
the status is OUT_OF_STOCK exactly on 0, LOW_STOCK exactly on 0 < inv < 10,
and IN_STOCK exactly on inv ≥ 10. -/
theorem inventory_status_cases (p : Product) (h : 0 ≤ p.inventory) :
    (p.inventory_status = "OUT_OF_STOCK" ↔ p.inventory = 0) ∧
    (p.inventory_status = "LOW_STOCK" ↔ 0 < p.inventory ∧ p.inventory < 10) ∧
    (p.inventory_status = "IN_STOCK" ↔ 10 ≤ p.inventory) := by
  have d1 : ("OUT_OF_STOCK" : String) ≠ "LOW_STOCK" := by decide
  have d2 : ("OUT_OF_STOCK" : String) ≠ "IN_STOCK" := by decide
  have d3 : ("LOW_STOCK" : String) ≠ "IN_STOCK" := by decide
  unfold Product.inventory_status
  split_ifs with h1 h2
  · exact ⟨⟨fun _ => by omega, fun _ => rfl⟩,
           ⟨fun hh => absurd hh d1, fun hh => absurd hh.1 (by omega)⟩,
           ⟨fun hh => absurd hh d2, fun hh => absurd hh (by omega)⟩⟩
  · exact ⟨⟨fun hh => absurd hh (Ne.symm d1), fun hh => absurd hh (by omega)⟩,
           ⟨fun _ => by omega, fun _ => rfl⟩,
           ⟨fun hh => absurd hh d3, fun hh => absurd hh (by omega)⟩⟩
  · exact ⟨⟨fun hh => absurd hh (Ne.symm d2), fun hh => absurd hh (by omega)⟩,
           ⟨fun hh => absurd hh (Ne.symm d3), fun hh => absurd hh.2 (by omega)⟩,
           ⟨fun _ => by omega, fun _ => rfl⟩⟩

/-- Witness for C9 at inventory 5 (LOW_STOCK). -/
theorem inventory_status_cases_witness :
    0 ≤ wProd.inventory ∧
    ((wProd.inventory_status = "OUT_OF_STOCK" ↔ wProd.inventory = 0) ∧
     (wProd.inventory_status = "LOW_STOCK" ↔ 0 < wProd.inventory ∧ wProd.inventory < 10) ∧
     (wProd.inventory_status = "IN_STOCK" ↔ 10 ≤ wProd.inventory)) :=
  ⟨by decide, inventory_status_cases wProd (by decide)⟩

/-- Witness for C1: adding sku `"a1"` over stored sku `"A1"`. -/
theorem add_product_duplicate_sku_witness :
    (∃ p ∈ [wProd], p.sku = strUpper "a1") ∧
    (add_product [wProd] "t1" "a1" "Widget2" "Tools" 5 0 0 "ea" "" =
      Except.error (CatalogError.duplicateSku (strUpper "a1")) ∧
    add_product_store [wProd] "t1" "a1" "Widget2" "Tools" 5 0 0 "ea" "" = [wProd]) :=
  ⟨by decide,
    add_product_duplicate_sku [wProd] "t1" "a1" "Widget2" "Tools" 5 0 0 "ea" "" (by decide)⟩

/-- Witness for C3: adjusting an absent sku. -/
theorem update_inventory_not_found_witness :
    (∀ p ∈ [wProd], p.sku ≠ strUpper "zz") ∧
    update_inventory [wProd] "t1" "zz" 5 = ([wProd], none) :=
  ⟨by decide, update_inventory_not_found [wProd] "t1" "zz" 5 (by decide)⟩

/-- Witness for C10: `"a1"` and `"A1"` behave identically. -/
theorem update_inventory_case_insensitive_witness :
    strUpper "a1" = strUpper "A1" ∧
    (update_inventory [wProd] "t1" "a1" 3 = update_inventory [wProd] "t1" "A1" 3 ∧
    update_inventory [wProd] "t1" "a1" 3 =
      update_inventory [wProd] "t1" (strUpper "a1") 3) :=
  ⟨by decide, update_inventory_case_insensitive [wProd] "t1" "a1" "A1" 3 (by decide)⟩

end ProductCatalog

namespace ProductCatalog

theorem round2_zero : round2 0 = 0 := by
  unfold round2 roundHalfEven
  norm_num

theorem stats_count_aux (P : Product → Bool) (store : List Product) :
    ((store.filter (fun p => p.active)).filter P).length =
      store.countP (fun p => p.active && P p) := by
  rw [List.filter_filter, List.countP_eq_length_filter]
  exact congrArg List.length (List.filter_congr (fun a _ => by rw [Bool.and_comm]))

theorem lookup_map_pair (g : String → ℕ) (c : String) :
    ∀ (k : List String), (k.map (fun x => (x, g x))).lookup c =
      if c ∈ k then some (g c) else none := by
  intro k
  induction k with
  | nil => simp
  | cons a t ih =>
    rw [List.map_cons]
    by_cases hca : c = a
    · subst hca
      simp
    · have hbeq : (c == a) = false := by simpa using hca
      simp only [List.lookup_cons, hbeq, ih]
      by_cases hct : c ∈ t
      · rw [if_pos hct, if_pos (List.mem_cons.mpr (Or.inr hct))]
      · rw [if_neg hct, if_neg (fun h => by
          rcases List.mem_cons.mp h with h1 | h2
          · exact hca h1
          · exact hct h2)]

/-! ### C6: catalog statistics -/

/-- C6: `stats` returns the count of active products, the counts of active
products with inventory 0 and with 0 < inventory < 10, an in-stock count
equal to total − out_of_stock − low_stock, the 2-decimal-rounded sum of
price × inventory over active products, and a category → active-count
mapping; on the empty store everything is zero / empty. -/
theorem get_catalog_stats_spec (store : List Product) :
    (get_catalog_stats store).total = store.countP (fun p => p.active) ∧
    (get_catalog_stats store).out_of_stock =
      store.countP (fun p => p.active && p.inventory == 0) ∧
    (get_catalog_stats store).low_stock =
      store.countP (fun p => p.active && (0 < p.inventory && p.inventory < 10)) ∧
    (get_catalog_stats store).in_stock =
      ((get_catalog_stats store).total : ℤ) - ((get_catalog_stats store).out_of_stock : ℤ) -
        ((get_catalog_stats store).low_stock : ℤ) ∧
    (get_catalog_stats store).inventory_value =
      round2 (((store.filter (fun p => p.active)).map
        (fun p => p.price * (p.inventory : ℚ))).sum) ∧
    (∀ c : String, (get_catalog_stats store).categories.lookup c =
      if store.countP (fun p => p.active && p.category == c) = 0 then none
      else some (store.countP (fun p => p.active && p.category == c))) ∧
    (get_catalog_stats []).total = 0 ∧
    (get_catalog_stats []).inventory_value = 0 ∧
    (get_catalog_stats []).categories = [] := by
  refine ⟨?_, ?_, ?_, rfl, rfl, ?_, rfl,
    by rw [show (get_catalog_stats []).inventory_value = round2 0 from rfl]; exact round2_zero,
    rfl⟩
  · rw [List.countP_eq_length_filter]
    rfl
  · exact stats_count_aux (fun p => p.inventory == 0) store
  · exact stats_count_aux (fun p => decide (0 < p.inventory) && decide (p.inventory < 10)) store
  · intro c
    have hgc : ((store.filter (fun p => p.active)).filter (fun p => p.category == c)).length =
        store.countP (fun p => p.active && p.category == c) :=
      stats_count_aux (fun p => p.category == c) store
    show (((store.filter (fun p => p.active)).map (fun p => p.category)).dedup.map
        (fun x => (x, ((store.filter (fun p => p.active)).filter
          (fun p => p.category == x)).length))).lookup c = _
    rw [lookup_map_pair
      (fun x => ((store.filter (fun p => p.active)).filter (fun p => p.category == x)).length) c]
    by_cases hc : c ∈ (store.filter (fun p => p.active)).map (fun p => p.category)
    · obtain ⟨p, hp, hpc⟩ := List.mem_map.mp hc
      have hpos : 0 < ((store.filter (fun p => p.active)).filter
          (fun p => p.category == c)).length :=
        List.length_pos_of_mem (List.mem_filter.mpr ⟨hp, by simp [hpc]⟩)
      rw [if_pos (List.mem_dedup.mpr hc), if_neg (by omega), hgc]
    · have hzero : ((store.filter (fun p => p.active)).filter
          (fun p => p.category == c)).length = 0 := by
        rw [List.length_eq_zero, List.filter_eq_nil_iff]
        intro p hp hpc
        exact hc (List.mem_map.mpr ⟨p, hp, by simpa using hpc⟩)
      rw [if_neg (by simpa using List.mem_dedup.not.mpr hc), if_pos (by omega)]

end ProductCatalog

namespace ProductCatalog

theorem catNameLe_trans : ∀ a b c : Product,
    catNameLe a b → catNameLe b c → catNameLe a c := by
  intro a b c hab hbc
  unfold catNameLe at *
  exact decide_eq_true (le_trans (of_decide_eq_true hab) (of_decide_eq_true hbc))

theorem catNameLe_total : ∀ a b : Product, catNameLe a b || catNameLe b a := by
  intro a b
  unfold catNameLe
  rcases le_total (toLex (a.category, a.name)) (toLex (b.category, b.name)) with h | h
  · simp [h]
  · simp [h]

theorem listKeep_eq_claimKeep (category : Option String) (active_only : Bool)
    (hcat : ∀ c, category = some c → c ≠ "") :
    listKeep category active_only = claimKeep category active_only := by
  funext p
  unfold listKeep claimKeep
  cases category with
  | none => rfl
  | some c =>
    show ((!active_only || p.active) && (if c = "" then true else p.category == c)) =
      ((!active_only || p.active) && (p.category == c))
    rw [if_neg (hcat c rfl)]

/-! ### C7: list ordering, filtering and limit -/

/-- C7 (corrected): counterexample as stated — with the empty string given
as the category, the code applies no category filter at all (Python
`if category:` treats `""` as no category), so a product whose category is
not `""` is returned. -/
theorem list_products_empty_category_cex :
    ∃ p ∈ list_products [wGadget] (some "") true 50, p.category ≠ "" := by
  have h : list_products [wGadget] (some "") true 50 = [wGadget] := by
    simp [list_products, listKeep, wGadget]
  exact ⟨wGadget, by rw [h]; exact List.mem_singleton_self wGadget, by decide⟩

/-- C7 (amended): for a category argument that is not the empty string and
a nonnegative limit, `list` returns products ordered by (category, name)
ascending, all drawn from the store, all active when `active_only`, all of
the requested category, at most `limit` of them; when everything matching
fits under the limit the result is exactly the matching products (as a
permutation), and an empty match yields `[]`, not an error.  (The code
treats an empty-string category like `None` — no filter — and a negative
limit as no cap.) -/
theorem list_products_spec (store : List Product) (category : Option String)
    (active_only : Bool) (limit : ℤ)
    (hcat : ∀ c, category = some c → c ≠ "") (hlim : 0 ≤ limit) :
    List.Pairwise (fun p q => catNameLe p q = true)
      (list_products store category active_only limit) ∧
    (list_products store category active_only limit).length ≤ limit.toNat ∧
    (∀ p ∈ list_products store category active_only limit,
      p ∈ store ∧ (active_only = true → p.active = true) ∧
      (∀ c, category = some c → p.category = c)) ∧
    (store.countP (claimKeep category active_only) ≤ limit.toNat →
      (list_products store category active_only limit).Perm
        (store.filter (claimKeep category active_only))) ∧
    (store.filter (claimKeep category active_only) = [] →
      list_products store category active_only limit = []) := by
  have hkeep := listKeep_eq_claimKeep category active_only hcat
  have hbranch : list_products store category active_only limit =
      ((store.filter (claimKeep category active_only)).mergeSort catNameLe).take
        limit.toNat := by
    unfold list_products
    rw [hkeep, if_neg (by omega)]
  refine ⟨?_, ?_, ?_, ?_, ?_⟩
  · rw [hbranch]
    exact ((List.sorted_mergeSort catNameLe_trans catNameLe_total _).sublist
      (List.take_sublist _ _))
  · rw [hbranch]
    simp
  · intro p hp
    rw [hbranch] at hp
    have hp2 : p ∈ (store.filter (claimKeep category active_only)).mergeSort catNameLe :=
      (List.take_sublist _ _).mem hp
    rw [List.mem_mergeSort, List.mem_filter] at hp2
    refine ⟨hp2.1, ?_, ?_⟩
    · intro ha
      have := hp2.2
      unfold claimKeep at this
      rw [ha] at this
      simpa using (Bool.and_elim_left this)
    · intro c hc
      have := hp2.2
      unfold claimKeep at this
      rw [hc] at this
      have := Bool.and_elim_right this
      simpa using this
  · intro hcount
    rw [hbranch]
    rw [List.countP_eq_length_filter] at hcount
    rw [List.take_of_length_le (by simpa using hcount)]
    exact List.mergeSort_perm _ _
  · intro hnil
    rw [hbranch, hnil]
    simp

/-- Witness for C7 at a concrete two-product store. -/
theorem list_products_spec_witness :
    ((∀ c, (some "Tools" : Option String) = some c → c ≠ "") ∧ (0 : ℤ) ≤ 50) ∧
    (List.Pairwise (fun p q => catNameLe p q = true)
      (list_products [wProd, wGadget] (some "Tools") true 50) ∧
    (list_products [wProd, wGadget] (some "Tools") true 50).length ≤ (50 : ℤ).toNat ∧
    (∀ p ∈ list_products [wProd, wGadget] (some "Tools") true 50,
      p ∈ [wProd, wGadget] ∧ (true = true → p.active = true) ∧
      (∀ c, (some "Tools" : Option String) = some c → p.category = c)) ∧
    ([wProd, wGadget].countP (claimKeep (some "Tools") true) ≤ (50 : ℤ).toNat →
      (list_products [wProd, wGadget] (some "Tools") true 50).Perm
        ([wProd, wGadget].filter (claimKeep (some "Tools") true))) ∧
    ([wProd, wGadget].filter (claimKeep (some "Tools") true) = [] →
      list_products [wProd, wGadget] (some "Tools") true 50 = [])) :=
  ⟨⟨fun c hc => by injection hc with h; subst h; decide, by decide⟩,
    list_products_spec [wProd, wGadget] (some "Tools") true 50
      (fun c hc => by injection hc with h; subst h; decide) (by decide)⟩

end ProductCatalog

namespace ProductCatalog

theorem likeMatch_cons (c : Char) (ps s : List Char) :
    likeMatch (c :: ps) s =
      if c = '%' then anySuffix (likeMatch ps) s
      else
        match s with
        | [] => false
        | d :: t =>
          if c = '_' then likeMatch ps t
          else (asciiUpper c == asciiUpper d) && likeMatch ps t := rfl

theorem anySuffix_iff (f : List Char → Bool) (s : List Char) :
    anySuffix f s = true ↔ ∃ t, t <:+ s ∧ f t = true := by
  induction s with
  | nil =>
    constructor
    · intro h
      exact ⟨[], List.suffix_rfl, h⟩
    · rintro ⟨t, ht, hf⟩
      rw [List.suffix_nil.mp ht] at hf
      exact hf
  | cons c s ih =>
    show (f (c :: s) || anySuffix f s) = true ↔ _
    rw [Bool.or_eq_true, ih]
    constructor
    · rintro (h | ⟨t, ht, hf⟩)
      · exact ⟨c :: s, List.suffix_rfl, h⟩
      · exact ⟨t, ht.trans (List.suffix_cons c s), hf⟩
    · rintro ⟨t, ht, hf⟩
      rcases List.suffix_cons_iff.mp ht with h | h
      · exact Or.inl (h ▸ hf)
      · exact Or.inr ⟨t, h, hf⟩

theorem likeMatch_tail_percent :
    ∀ (q : List Char), (∀ c ∈ q, c ≠ '%' ∧ c ≠ '_') →
      ∀ s : List Char,
        likeMatch (q ++ ['%']) s = true ↔ (q.map asciiUpper) <+: (s.map asciiUpper) := by
  intro q
  induction q with
  | nil =>
    intro _ s
    show likeMatch ('%' :: []) s = true ↔ _
    rw [likeMatch_cons, if_pos rfl]
    constructor
    · intro _
      exact List.nil_prefix
    · intro _
      rw [anySuffix_iff]
      exact ⟨[], List.nil_suffix, rfl⟩
  | cons c q ih =>
    intro hq s
    have hc := hq c (List.mem_cons_self c q)
    have hq' : ∀ x ∈ q, x ≠ '%' ∧ x ≠ '_' := fun x hx => hq x (List.mem_cons_of_mem c hx)
    show likeMatch (c :: (q ++ ['%'])) s = true ↔ _
    rw [likeMatch_cons, if_neg hc.1]
    cases s with
    | nil => simp
    | cons d t =>
      show (if c = '_' then likeMatch (q ++ ['%']) t
            else (asciiUpper c == asciiUpper d) && likeMatch (q ++ ['%']) t) = true ↔ _
      rw [if_neg hc.2, Bool.and_eq_true, List.map_cons, List.map_cons,
        List.cons_prefix_cons, ih hq' t]
      constructor
      · rintro ⟨h1, h2⟩
        exact ⟨by simpa using h1, h2⟩
      · rintro ⟨h1, h2⟩
        exact ⟨by simp [h1], h2⟩

theorem infix_map_to_suffix (A : List Char) :
    ∀ (s : List Char), A <:+: (s.map asciiUpper) →
      ∃ t, t <:+ s ∧ A <+: (t.map asciiUpper) := by
  intro s
  induction s with
  | nil =>
    intro h
    refine ⟨[], List.suffix_rfl, ?_⟩
    simp only [List.map_nil] at h ⊢
    rw [List.infix_nil.mp h]
  | cons c s ih =>
    intro h
    rw [List.map_cons] at h
    rcases List.infix_cons_iff.mp h with h1 | h1
    · exact ⟨c :: s, List.suffix_rfl, by rw [List.map_cons]; exact h1⟩
    · obtain ⟨t, ht, hp⟩ := ih h1
      exact ⟨t, ht.trans (List.suffix_cons c s), hp⟩

theorem likeMatch_full_iff (q : List Char) (hq : ∀ c ∈ q, c ≠ '%' ∧ c ≠ '_')
    (s : List Char) :
    likeMatch ('%' :: (q ++ ['%'])) s = true ↔
      (q.map asciiUpper) <:+: (s.map asciiUpper) := by
  rw [likeMatch_cons, if_pos rfl, anySuffix_iff]
  constructor
  · rintro ⟨t, hts, hf⟩
    exact List.infix_iff_prefix_suffix.mpr
      ⟨t.map asciiUpper, (likeMatch_tail_percent q hq t).mp hf,
        List.IsSuffix.map asciiUpper hts⟩
  · intro hinf
    obtain ⟨t, hts, hp⟩ := infix_map_to_suffix (q.map asciiUpper) s hinf
    exact ⟨t, hts, (likeMatch_tail_percent q hq t).mpr hp⟩

theorem searchKeep_iff_spec (q : String) (hq : noWildcards q) (p : Product) :
    searchKeep q p = true ↔ specSearchMatch q p := by
  unfold searchKeep specSearchMatch
  simp only [Bool.or_eq_true, List.cons_append]
  rw [likeMatch_full_iff q.data hq p.sku.data, likeMatch_full_iff q.data hq p.name.data,
    likeMatch_full_iff q.data hq p.category.data,
    likeMatch_full_iff q.data hq p.description.data]
  tauto

theorem nameLe_trans : ∀ a b c : Product, nameLe a b → nameLe b c → nameLe a c := by
  intro a b c hab hbc
  unfold nameLe at *
  exact decide_eq_true (le_trans (of_decide_eq_true hab) (of_decide_eq_true hbc))

theorem nameLe_total : ∀ a b : Product, nameLe a b || nameLe b a := by
  intro a b
  unfold nameLe
  rcases le_total a.name b.name with h | h
  · simp [h]
  · simp [h]

/-! ### C5: search semantics -/

/-- C5 (corrected): counterexample as stated — the query `"a_c"` is not a
substring of any field of the product named `"abc"`, yet `search` returns
it, because SQL `LIKE` treats `_` as a one-character wildcard. -/
theorem search_wildcard_cex :
    search [wAbc] "a_c" = [wAbc] ∧ ¬ specSearchMatch "a_c" wAbc := by
  refine ⟨?_, by decide⟩
  unfold search
  rw [show [wAbc].filter (searchKeep "a_c") = [wAbc] from by decide]
  exact List.mergeSort_singleton wAbc

/-- C5 (amended): for query strings containing no `LIKE` wildcard (`%`,
`_`), `search` returns exactly the products of which the query is a
case-insensitive substring of sku, name, category or description (OR
semantics, each product exactly once), ordered by name ascending with no
limit, and the empty query matches every product. -/
theorem search_spec (store : List Product) (q : String) (hq : noWildcards q) :
    List.Pairwise (fun a b => nameLe a b = true) (search store q) ∧
    (∀ p, p ∈ search store q ↔ p ∈ store ∧ specSearchMatch q p) ∧
    (search store q).Perm (store.filter (fun p => decide (specSearchMatch q p))) ∧
    (q = "" → (search store q).Perm store) := by
  have hfilt : store.filter (searchKeep q) =
      store.filter (fun p => decide (specSearchMatch q p)) :=
    List.filter_congr (fun p _ => Bool.eq_iff_iff.mpr
      (by rw [decide_eq_true_eq]; exact searchKeep_iff_spec q hq p))
  refine ⟨?_, ?_, ?_, ?_⟩
  · exact List.sorted_mergeSort nameLe_trans nameLe_total _
  · intro p
    unfold search
    rw [List.mem_mergeSort, List.mem_filter]
    exact and_congr_right (fun _ => searchKeep_iff_spec q hq p)
  · unfold search
    rw [hfilt]
    exact List.mergeSort_perm _ _
  · intro hq0
    subst hq0
    unfold search
    rw [List.filter_eq_self.mpr
      (fun p _ => (searchKeep_iff_spec "" hq p).mpr (Or.inl (by simp)))]
    exact List.mergeSort_perm store nameLe

/-- Witness for C5 with the wildcard-free query `"wid"`. -/
theorem search_spec_witness :
    noWildcards "wid" ∧
    (List.Pairwise (fun a b => nameLe a b = true) (search [wProd, wGadget] "wid") ∧
    (∀ p, p ∈ search [wProd, wGadget] "wid" ↔
      p ∈ [wProd, wGadget] ∧ specSearchMatch "wid" p) ∧
    (search [wProd, wGadget] "wid").Perm
      ([wProd, wGadget].filter (fun p => decide (specSearchMatch "wid" p))) ∧
    ("wid" = "" → (search [wProd, wGadget] "wid").Perm [wProd, wGadget])) :=
  ⟨by decide, search_spec [wProd, wGadget] "wid" (by decide)⟩

end ProductCatalog

namespace ProductCatalog

theorem list_products_all (store : List Product) :
    list_products store none false 100000 = (store.mergeSort catNameLe).take 100000 := by
  have hfil : store.filter (listKeep none false) = store :=
    List.filter_eq_self.mpr (fun a _ => rfl)
  unfold list_products
  rw [if_neg (by omega), hfil]
  rfl

theorem fmtFixed_decimals (x : ℚ) (d : ℕ) :
    ∃ a b : String, fmtFixed x d = a ++ "." ++ b ∧ b.data.length = d ∧
      ∀ c ∈ b.data, c.isDigit := by
  have hdig : ∀ m : ℕ, m < 10 → (Nat.digitChar m).isDigit = true := by decide
  refine ⟨(if roundHalfEven (x * (10 : ℚ) ^ d) < 0 then "-" else "") ++
      Nat.repr ((roundHalfEven (x * (10 : ℚ) ^ d)).natAbs / 10 ^ d),
    fracDigits ((roundHalfEven (x * (10 : ℚ) ^ d)).natAbs % 10 ^ d) d, rfl, ?_, ?_⟩
  · simp [fracDigits]
  · intro c hc
    simp only [fracDigits] at hc
    obtain ⟨k, _, rfl⟩ := List.mem_map.mp hc
    exact hdig _ (Nat.mod_lt _ (by norm_num))

/-! ### C4: csv export -/

/-- C4 (corrected): counterexample as stated — `export_csv` reads at most
100000 rows (`limit=100000`), so on a store of 100001 products the data
rows are not the products rendered once each (there is one row too few). -/
theorem export_csv_limit_cex :
    ¬ (exportRows bigStore).Perm (bigStore.map productCsvRow) := by
  intro h
  have hbig : bigStore.length = 100001 := by
    unfold bigStore
    rw [List.length_map, List.length_range]
  have h1 : (exportRows bigStore).length = 100000 := by
    unfold exportRows
    rw [List.length_map, list_products_all, List.length_take, List.length_mergeSort, hbig]
    omega
  have h2 : (bigStore.map productCsvRow).length = 100001 := by
    rw [List.length_map, hbig]
  rw [h.length_eq, h2] at h1
  exact absurd h1 (by norm_num)

/-- C4 (amended): `export_csv` returns the header row
`SKU,Name,Category,Price,Cost,Margin%,Inventory,Unit,Status,Active`
followed by one data row per product — active and inactive alike, each
product exactly once *provided the store holds at most 100000 products*
(the code passes `limit=100000`, not unlimited) — with price and cost
rendered with exactly 2 decimal digits and margin with exactly 1.  (The
optional write of the same returned text to a file is I/O outside the
model.) -/
theorem export_csv_spec (store : List Product) (h : store.length ≤ 100000) :
    export_csv store = csvHeader ++ String.join (exportRows store) ∧
    csvHeader = "SKU,Name,Category,Price,Cost,Margin%,Inventory,Unit,Status,Active\r\n" ∧
    (exportRows store).Perm (store.map productCsvRow) ∧
    (∀ p : Product, productCsvRow p = csvRow [p.sku, p.name, p.category,
      fmtFixed p.price 2, fmtFixed p.cost 2, fmtFixed p.margin_pct 1,
      toString p.inventory, p.unit, p.inventory_status, pyBoolStr p.active]) ∧
    (∀ x : ℚ, ∃ a b : String, fmtFixed x 2 = a ++ "." ++ b ∧ b.data.length = 2 ∧
      ∀ c ∈ b.data, c.isDigit) ∧
    (∀ x : ℚ, ∃ a b : String, fmtFixed x 1 = a ++ "." ++ b ∧ b.data.length = 1 ∧
      ∀ c ∈ b.data, c.isDigit) := by
  refine ⟨rfl, by decide, ?_, fun p => rfl, fun x => fmtFixed_decimals x 2,
    fun x => fmtFixed_decimals x 1⟩
  unfold exportRows
  rw [list_products_all,
    List.take_of_length_le (by rw [List.length_mergeSort]; exact h)]
  exact (List.mergeSort_perm store catNameLe).map productCsvRow

/-- Witness for C4 at a one-product store. -/
theorem export_csv_spec_witness :
    [wProd].length ≤ 100000 ∧
    (export_csv [wProd] = csvHeader ++ String.join (exportRows [wProd]) ∧
    csvHeader = "SKU,Name,Category,Price,Cost,Margin%,Inventory,Unit,Status,Active\r\n" ∧
    (exportRows [wProd]).Perm ([wProd].map productCsvRow) ∧
    (∀ p : Product, productCsvRow p = csvRow [p.sku, p.name, p.category,
      fmtFixed p.price 2, fmtFixed p.cost 2, fmtFixed p.margin_pct 1,
      toString p.inventory, p.unit, p.inventory_status, pyBoolStr p.active]) ∧
    (∀ x : ℚ, ∃ a b : String, fmtFixed x 2 = a ++ "." ++ b ∧ b.data.length = 2 ∧
      ∀ c ∈ b.data, c.isDigit) ∧
    (∀ x : ℚ, ∃ a b : String, fmtFixed x 1 = a ++ "." ++ b ∧ b.data.length = 1 ∧
      ∀ c ∈ b.data, c.isDigit)) :=
  ⟨by decide, export_csv_spec [wProd] (by decide)⟩

end ProductCatalog
